import Mathlib

/-!
Verification of the serving core of the `thrift` ML inference server
(`workers/app/batch.py`, `workers/app/model_manager.py`,
`workers/app/prediction_logger.py`, `workers/app/main.py`) against its
natural-language specification.

The Python source is shallowly embedded: pure fragments become Lean
functions, the asyncio interleaving of `BatchProcessor` becomes a small-step
relation on scheduler states, and the mutable `ModelManager` cache and
`PredictionLoggerService` become explicit state-passing functions.
-/

namespace Thrift

/-! ## Batch scheduler: functional core of `BatchProcessor._process_batch`

`batch.py` lines 63-96.  A queue entry is a feature row paired with the id
of its single-use result slot (the `asyncio.Future`).  The model is a
function from a stacked batch of rows to either a list of labels or a
raised exception (`Except`). -/

/-- Feature rows are lists of rationals (floats carry no rounding here;
only which row produced which label matters). -/
abbrev Features := List ℚ

/-- Identifier of a result slot (an `asyncio.Future` created per submit). -/
abbrev SlotId := Nat

/-- A queued request: `(features, future)` pair, `batch.py` line 37. -/
abbrev QItem := Features × SlotId

/-- The wrapped model's `predict`: takes the stacked batch, returns the
label vector or raises (`Except.error`). -/
abbrev ModelFn := List Features → Except String (List Int)

/-- A predictor that labels each row independently, as the Predictor
adapter contract promises (`predict(batch[N x F]) -> labels[N]`, one label
per row, rows independent). -/
def rowModel (f : Features → Int) : ModelFn := fun rows => .ok (rows.map f)

/-- The label a non-batched call would produce: `predictor.predict([[features]])[0]`. -/
def singleRowPredict (m : ModelFn) (feat : Features) : Except String Int :=
  (m [feat]).map (fun labels => labels.headD 0)

/-- How one slot ends: with a label (`future.set_result(int(prediction))`,
line 83) or with the raised exception (`future.set_exception(e)`, line 96). -/
inductive Outcome
  | label (v : Int)
  | failure (e : String)
  deriving DecidableEq, Repr

/-- Number of entries the drainer detaches:
`batch_size = min(len(self.queue), self.max_batch_size)` (line 64). -/
def detachCount (maxBatchSize qlen : Nat) : Nat := min qlen maxBatchSize

/-- The drainer's atomic detach (lines 64-65): pop the oldest
`min(len(queue), max_batch_size)` entries, in FIFO order. -/
def detachBatch (maxBatchSize : Nat) (q : List QItem) : List QItem × List QItem :=
  (q.take (detachCount maxBatchSize q.length), q.drop (detachCount maxBatchSize q.length))

/-- Lines 69-96: stack the detached rows, call `model.predict` once, and
complete each slot — on success slot `i` gets `result[i]` (the
`zip(futures_list, predictions)` loop), on exception every slot of the
batch gets the same exception. -/
def runBatch (m : ModelFn) (batch : List QItem) : List (SlotId × Outcome) :=
  match m (batch.map Prod.fst) with
  | .ok preds => (batch.map Prod.snd).zip (preds.map Outcome.label)
  | .error e => batch.map (fun p => (p.snd, Outcome.failure e))

/-! ## Batch scheduler: asyncio interleaving of `predict` / `_process_batch`

`batch.py` lines 26-102.  The event loop is single-threaded and the only
suspension points are `await future` (line 45) and `await asyncio.sleep`
(line 56): acquiring the uncontended `asyncio.Lock` does not yield, and the
whole post-sleep drainer body (detach, `model.predict`, completion loop,
`processing = False`, conditional respawn) runs without yielding.  So an
execution is an interleaving of three kinds of atomic steps: a submit
prefix (enqueue + flag check + possible `create_task`), a spawned task
beginning to run (`processing = True` then sleep), and a sleeping drainer
waking (batch round or empty-queue exit).  `detached` is a ghost counter of
queue entries removed by drainers. -/

structure SchedState where
  queue : List QItem
  processing : Bool
  created : Nat
  sleeping : Nat
  calls : Nat
  completed : List (SlotId × Outcome)
  nextSlot : Nat
  detached : Nat
  deriving Repr, DecidableEq

/-- The scheduler as constructed (`__init__`, lines 22-23): empty queue,
`processing = False`, no drainer task. -/
def initState : SchedState :=
  { queue := [], processing := false, created := 0, sleeping := 0,
    calls := 0, completed := [], nextSlot := 0, detached := 0 }

/-- One atomic step of the event loop, for a scheduler with
`max_batch_size = B` over model `m`. -/
inductive SchedStep (B : Nat) (m : ModelFn) : SchedState → SchedState → Prop
  /-- `predict` lines 34-42: append `(features, future)` to the queue; then
  `if not self.processing: asyncio.create_task(self._process_batch())`.
  The check reads the flag, not the set of spawned tasks. -/
  | submit (s : SchedState) (f : Features) :
      SchedStep B m s
        { queue := s.queue ++ [(f, s.nextSlot)]
          processing := s.processing
          created := s.created + (if s.processing then 0 else 1)
          sleeping := s.sleeping
          calls := s.calls
          completed := s.completed
          nextSlot := s.nextSlot + 1
          detached := s.detached }
  /-- A spawned `_process_batch` task begins: `self.processing = True`
  (line 53) then suspends in `asyncio.sleep` (line 56). -/
  | dstart (s : SchedState) (h : 0 < s.created) :
      SchedStep B m s
        { queue := s.queue
          processing := true
          created := s.created - 1
          sleeping := s.sleeping + 1
          calls := s.calls
          completed := s.completed
          nextSlot := s.nextSlot
          detached := s.detached }
  /-- A sleeping drainer wakes to an empty queue (lines 58-61): clear the
  flag and exit. -/
  | dwakeEmpty (s : SchedState) (h : 0 < s.sleeping) (hq : s.queue = []) :
      SchedStep B m s
        { queue := s.queue
          processing := false
          created := s.created
          sleeping := s.sleeping - 1
          calls := s.calls
          completed := s.completed
          nextSlot := s.nextSlot
          detached := s.detached }
  /-- A sleeping drainer wakes to a non-empty queue (lines 63-102): detach
  up to `B` oldest entries, invoke `model.predict` once, complete every
  detached slot, clear the flag, respawn iff the queue is still non-empty. -/
  | dwakeRun (s : SchedState) (h : 0 < s.sleeping) (hq : s.queue ≠ []) :
      SchedStep B m s
        { queue := (detachBatch B s.queue).2
          processing := false
          created := s.created + (if (detachBatch B s.queue).2.isEmpty then 0 else 1)
          sleeping := s.sleeping - 1
          calls := s.calls + 1
          completed := s.completed ++ runBatch m (detachBatch B s.queue).1
          nextSlot := s.nextSlot
          detached := s.detached + (detachBatch B s.queue).1.length }

/-- Reachability along event-loop interleavings. -/
def Reach (B : Nat) (m : ModelFn) : SchedState → SchedState → Prop :=
  Relation.ReflTransGen (SchedStep B m)

/-- A concrete row-wise model used for concrete executions. -/
def demoModel : ModelFn := rowModel (fun _ => 0)

/-! ## Model cache: `ModelManager` (`model_manager.py`)

The cache is an `OrderedDict` keyed by `(model_name, version)`; its order
is the recency order (front = least recently used): `_move_to_end` on every
hit and append on insert.  The embedding is an association list in the same
order.  `lastUsed` / `loadedAt` are the spec's ghost timestamps
(`last_used_at` / `loaded_at`): the code stores no clock, so each mutating
call takes the current time `now` and reachability requires the clock to be
strictly monotone (each call's `now` exceeds every resident timestamp). -/

abbrev ModelKey := String × String

structure Entry where
  lastUsed : Nat
  loadedAt : Nat
  framework : String
  batchSize : Nat
  waitMs : Nat
  deriving Repr, DecidableEq

abbrev Cache := List (ModelKey × Entry)

def keys (c : Cache) : List ModelKey := c.map Prod.fst

/-- `_evict_lru` (lines 59-81): `popitem(last=False)` removes the first
item of the `OrderedDict`; no-op on an empty cache. -/
def evictLru (c : Cache) : Cache := c.tail

/-- `_move_to_end` (lines 83-86) at time `now`: if the key is resident,
move its item to the back, leaving every other item in order; `lastUsed`
is stamped with `now` (ghost). -/
def touch (c : Cache) (k : ModelKey) (now : Nat) : Cache :=
  match c.find? (fun p => p.1 == k) with
  | some p => c.eraseP (fun q => q.1 == k) ++ [(k, { p.2 with lastUsed := now })]
  | none => c

/-- Registry record fields the cache reads (`ModelMetadata` row). -/
structure RegRecord where
  framework : String
  s3Path : String
  deriving Repr, DecidableEq

/-- `load_model` error cases: `ValueError` for a registry miss (lines
153-157), any other exception for a failed download/deserialize
(lines 232-247, re-raised). -/
inductive LoadErr
  | registryMissing
  | loadFailure (msg : String)
  deriving Repr, DecidableEq

/-- The dict `load_model` returns.  `Option` fields mirror keys present in
only one of the two return dicts: the `already_loaded` dict (lines 137-142)
has `message` but neither `framework` nor `cache_size`; the `loaded` dict
(lines 224-231) has `framework` and `cache_size` but no `message`. -/
structure LoadResult where
  status : String
  modelName : String
  version : String
  message : Option String
  framework : Option String
  cacheSize : Option Nat
  deriving Repr, DecidableEq

/-- The `CacheEntry` built on a successful load (lines 178-199):
`BatchProcessor(model, max_batch_size=batch_size, max_wait_ms=batch_wait_ms)`
plus the metadata dict; both ghost timestamps are the load time. -/
def newEntry (fw : String) (batchSize waitMs now : Nat) : Entry :=
  { lastUsed := now, loadedAt := now, framework := fw,
    batchSize := batchSize, waitMs := waitMs }

/-- `load_model` (lines 106-251).  The registry lookup and the blob
download + deserialize are external collaborators, passed in as `R` and
`F`; `maxM` is `max_models_in_memory`. -/
def loadModel (maxM : Nat) (R : ModelKey → Option RegRecord)
    (F : ModelKey → Except String Unit) (c : Cache) (k : ModelKey)
    (batchSize waitMs now : Nat) : Except LoadErr (LoadResult × Cache) :=
  if k ∈ keys c then
    .ok ({ status := "already_loaded", modelName := k.1, version := k.2,
           message := some "Model was already in memory",
           framework := none, cacheSize := none }, touch c k now)
  else
    match R k with
    | none => .error .registryMissing
    | some r =>
      match F k with
      | .error e => .error (.loadFailure e)
      | .ok _ =>
        let c1 := if maxM ≤ c.length then evictLru c else c
        let c2 := c1 ++ [(k, newEntry r.framework batchSize waitMs now)]
        .ok ({ status := "loaded", modelName := k.1, version := k.2,
               message := none, framework := some r.framework,
               cacheSize := some c2.length }, c2)

/-- The dict `unload_model` returns (lines 253-298): the `not_loaded`
branch carries `message` and no `cache_size`. -/
structure UnloadResult where
  status : String
  message : Option String
  cacheSize : Option Nat
  deriving Repr, DecidableEq

/-- `unload_model` (lines 253-298). -/
def unloadModel (c : Cache) (k : ModelKey) : UnloadResult × Cache :=
  if k ∈ keys c then
    let c' := c.eraseP (fun q => q.1 == k)
    ({ status := "unloaded", message := none, cacheSize := some c'.length }, c')
  else
    ({ status := "not_loaded", message := some "Model was not in memory",
       cacheSize := none }, c)

/-- Message of the `ValueError` raised by `ModelManager.predict` on a
cache miss (lines 323-327). -/
def notLoadedMsg (k : ModelKey) : String :=
  "Model " ++ k.1 ++ ":" ++ k.2 ++ " not loaded. Load it first with POST /models/load"

/-- `ModelManager.predict` (lines 300-337): miss raises the `ValueError`;
hit touches the entry to MRU and dispatches to the entry's batch
processor, whose returned label for a row-wise predictor is the per-row
label (`runBatch_rowModel` below).  `models` assigns each key its per-row
predictor. -/
def mmPredict (models : ModelKey → Features → Int) (c : Cache) (k : ModelKey)
    (feat : Features) (now : Nat) : Except String (Int × Cache) :=
  if k ∈ keys c then .ok (models k feat, touch c k now)
  else .error (notLoadedMsg k)

/-- `is_loaded` (lines 88-91): a membership test under the lock; the body
contains no `_move_to_end` and no write, so the cache it leaves behind is
the cache it was given. -/
def isLoadedCall (c : Cache) (k : ModelKey) : Bool × Cache :=
  (decide (k ∈ keys c), c)

/-- Descriptor built by `get_loaded_models`. -/
structure ModelDesc where
  modelName : String
  version : String
  framework : String
  deriving Repr, DecidableEq

/-- `get_loaded_models` (lines 93-104): a read-only comprehension over the
items; likewise leaves the cache unchanged. -/
def getLoadedModelsCall (c : Cache) : List ModelDesc × Cache :=
  (c.map (fun p => { modelName := p.1.1, version := p.1.2,
                     framework := p.2.framework }), c)

/-- Strictly monotone ghost clock: the time of a call is later than every
resident entry's last use. -/
abbrev FreshClock (c : Cache) (now : Nat) : Prop := ∀ p ∈ c, p.2.lastUsed < now

/-- The `OrderedDict` recency order read through the ghost timestamps:
front to back, strictly increasing last use (front = LRU). -/
abbrev LruSorted (c : Cache) : Prop :=
  c.Pairwise (fun a b => a.2.lastUsed < b.2.lastUsed)

/-- Caches reachable through the `ModelManager` entry points, starting
from the empty cache built by `__init__`, under a strictly monotone clock.
Failed loads leave the cache unchanged (the `except` path re-raises after
metrics only), and `is_loaded` / `get_loaded_models` do not write, so they
need no constructor. -/
inductive CacheReach (maxM : Nat) : Cache → Prop
  | init : CacheReach maxM []
  | loadOk (c : Cache) (R : ModelKey → Option RegRecord)
      (F : ModelKey → Except String Unit) (k : ModelKey)
      (bs w now : Nat) (res : LoadResult × Cache)
      (h : CacheReach maxM c) (hnow : FreshClock c now)
      (heq : loadModel maxM R F c k bs w now = .ok res) :
      CacheReach maxM res.2
  | unload (c : Cache) (k : ModelKey) (h : CacheReach maxM c) :
      CacheReach maxM (unloadModel c k).2
  | predictOk (c : Cache) (models : ModelKey → Features → Int)
      (k : ModelKey) (feat : Features) (now : Nat) (res : Int × Cache)
      (h : CacheReach maxM c) (hnow : FreshClock c now)
      (heq : mmPredict models c k feat now = .ok res) :
      CacheReach maxM res.2

theorem touch_length (c : Cache) (k : ModelKey) (now : Nat) :
    (touch c k now).length = c.length := by
  unfold touch
  cases hf : c.find? (fun p => p.1 == k) with
  | none => rfl
  | some p =>
    have hm := List.mem_of_find?_eq_some hf
    have hp := List.find?_some hf
    simp only [List.length_append, List.length_cons, List.length_nil]
    exact List.length_eraseP_add_one hm hp

theorem touch_sorted (c : Cache) (k : ModelKey) (now : Nat)
    (hs : LruSorted c) (hfresh : FreshClock c now) :
    LruSorted (touch c k now) := by
  unfold touch
  cases hf : c.find? (fun p => p.1 == k) with
  | none => exact hs
  | some p =>
    refine List.pairwise_append.2 ⟨hs.sublist (List.eraseP_sublist c), by simp, ?_⟩
    intro a ha b hb
    have hac : a ∈ c := (List.eraseP_sublist c).subset ha
    have hb' : b = (k, { p.2 with lastUsed := now }) := by simpa using hb
    subst hb'
    exact hfresh a hac

/-- Inserting a fresh entry behind the capacity check (lines 185-199)
keeps the cache within capacity and in recency order. -/
theorem insert_inv (maxM : Nat) (hM : 1 ≤ maxM) (c : Cache) (k : ModelKey)
    (e : Entry) (hlen : c.length ≤ maxM) (hs : LruSorted c)
    (hfresh : ∀ p ∈ c, p.2.lastUsed < e.lastUsed) :
    ((if maxM ≤ c.length then evictLru c else c) ++ [(k, e)]).length ≤ maxM ∧
      LruSorted ((if maxM ≤ c.length then evictLru c else c) ++ [(k, e)]) := by
  have hsub : List.Sublist (if maxM ≤ c.length then evictLru c else c) c := by
    by_cases hcap : maxM ≤ c.length
    · rw [if_pos hcap]; exact List.tail_sublist c
    · rw [if_neg hcap]
  constructor
  · simp only [List.length_append, List.length_cons, List.length_nil]
    by_cases hcap : maxM ≤ c.length
    · rw [if_pos hcap]
      have h1 : 1 ≤ c.length := le_trans hM hcap
      simp only [evictLru, List.length_tail]
      omega
    · rw [if_neg hcap]
      omega
  · refine List.pairwise_append.2 ⟨hs.sublist hsub, by simp, ?_⟩
    intro a ha b hb
    have hb' : b = (k, e) := by simp at hb; exact hb
    subst hb'
    exact hfresh a (hsub.subset ha)

theorem cacheReach_inv (maxM : Nat) (hM : 1 ≤ maxM) (c : Cache)
    (h : CacheReach maxM c) : c.length ≤ maxM ∧ LruSorted c := by
  induction h with
  | init => exact ⟨by simp, List.Pairwise.nil⟩
  | loadOk c R F k bs w now res h hnow heq ih =>
    unfold loadModel at heq
    by_cases hmem : k ∈ keys c
    · rw [if_pos hmem] at heq
      injection heq with h2
      rw [← h2]
      exact ⟨by rw [touch_length]; exact ih.1, touch_sorted c k now ih.2 hnow⟩
    · rw [if_neg hmem] at heq
      cases hR : R k with
      | none => rw [hR] at heq; exact absurd heq (by simp)
      | some r =>
        rw [hR] at heq
        cases hF : F k with
        | error e => rw [hF] at heq; exact absurd heq (by simp)
        | ok u =>
          rw [hF] at heq
          injection heq with h2
          rw [← h2]
          exact insert_inv maxM hM c k (newEntry r.framework bs w now)
            ih.1 ih.2 hnow
  | unload c k h ih =>
    unfold unloadModel
    by_cases hmem : k ∈ keys c
    · rw [if_pos hmem]
      exact ⟨le_trans ((List.eraseP_sublist c).length_le) ih.1,
        ih.2.sublist (List.eraseP_sublist c)⟩
    · rw [if_neg hmem]
      exact ih
  | predictOk c models k feat now res h hnow heq ih =>
    unfold mmPredict at heq
    by_cases hmem : k ∈ keys c
    · rw [if_pos hmem] at heq
      injection heq with h2
      rw [← h2]
      exact ⟨by rw [touch_length]; exact ih.1, touch_sorted c k now ih.2 hnow⟩
    · rw [if_neg hmem] at heq
      exact absurd heq (by simp)

/-! ## Prediction log pipeline: `PredictionLoggerService`
(`prediction_logger.py`)

A record is represented by an identity; the claims only track which
records end up where.  `dropped` is the overflow counter the spec
postulates: the source defines no such counter and no operation below
increments it, which is exactly what the claims about it turn on. -/

abbrev LogRec := Nat

structure LoggerState where
  queue : List LogRec
  buffer : List LogRec
  flushed : List LogRec
  dropped : Nat
  deriving Repr, DecidableEq

/-- `__init__` line 31: `self.queue = asyncio.Queue()` — the default
`maxsize` is `0`, which asyncio treats as unbounded. -/
def loggerQueueMaxsize : Nat := 0

/-- asyncio's `Queue.full()`: true only when `0 < maxsize ≤ qsize`. -/
def queueFull (s : LoggerState) : Bool :=
  decide (0 < loggerQueueMaxsize ∧ loggerQueueMaxsize ≤ s.queue.length)

/-- `log` (lines 49-76): build the entry and `await self.queue.put(entry)`.
A put on an unbounded queue appends and returns; nothing is dropped and
nothing is raised to the caller. -/
def logCall (s : LoggerState) (r : LogRec) : LoggerState :=
  { s with queue := s.queue ++ [r] }

/-- One `queue.get` of the worker loop (lines 92-97): move the oldest
queued record into the local `batch` list; the 1-second timeout path
changes nothing. -/
def workerDequeue (s : LoggerState) : LoggerState :=
  match s.queue with
  | [] => s
  | r :: rest => { s with queue := rest, buffer := s.buffer ++ [r] }

/-- A successful `_flush_batch` + `batch = []` (lines 108-111, 127-153):
the buffer is bulk-inserted and cleared. -/
def flushOk (s : LoggerState) : LoggerState :=
  { s with buffer := [], flushed := s.flushed ++ s.buffer }

/-- A failed `_flush_batch` + `batch = []`: the insert rolls back, the
error is logged, and the buffer is discarded. -/
def flushFail (s : LoggerState) : LoggerState :=
  { s with buffer := [] }

/-- `stop` (lines 39-47) through the worker's `CancelledError` handler
(lines 113-117): the in-progress `batch` buffer gets one final
`_flush_batch` (success case here) and the task re-raises; `self.queue`
is never read again, so queued-but-undequeued records stay behind. -/
def stopCall (s : LoggerState) : LoggerState :=
  { s with buffer := [], flushed := s.flushed ++ s.buffer }

/-! ## Request handler: the `predict` endpoint (`main.py` lines 188-297) -/

/-- The handler's observable actions, recorded in order: a
`model_manager.predict` attempt, or a `model_manager.load_model` call with
the batching parameters it passed. -/
inductive HEvent
  | predictAttempt
  | autoLoadAttempt (batchSize waitMs : Nat)
  deriving Repr, DecidableEq

def isAutoLoadEv : HEvent → Bool
  | .autoLoadAttempt _ _ => true
  | _ => false

def isPredictEv : HEvent → Bool
  | .predictAttempt => true
  | _ => false

/-- Substring search over character lists (Python's `needle in hay`). -/
def listContains (hay needle : List Char) : Bool :=
  needle.isPrefixOf hay ||
    (match hay with
     | [] => false
     | _ :: t => listContains t needle)

/-- Python's `"not loaded" in str(e)` (line 211). -/
def containsNotLoaded (msg : String) : Bool :=
  listContains msg.data "not loaded".data

/-- The retry after auto-load (lines 220-224): a second `ValueError`
escapes to the outer handler (lines 266-277) and becomes a 404. -/
def handlerRetry (models : ModelKey → Features → Int) (c : Cache)
    (k : ModelKey) (feat : Features) (t3 : Nat) : (Nat × Option Int) × Cache :=
  match mmPredict models c k feat t3 with
  | .ok (p, c2) => ((200, some p), c2)
  | .error _ => ((404, none), c)

/-- The `predict` endpoint (lines 201-297).  First attempt; on a
`ValueError` whose message contains `"not loaded"`, one
`load_model(model_name, version, default_batch_size, default_batch_wait_ms)`
followed by exactly one retry.  A `ValueError` out of the auto-load
(registry miss) reaches the outer `except ValueError` → 404; any other
load exception reaches the generic handler → 500.  Returns
`((status code, body prediction), final cache, event trace)`. -/
def handlerPredict (models : ModelKey → Features → Int) (maxM : Nat)
    (R : ModelKey → Option RegRecord) (F : ModelKey → Except String Unit)
    (dBS dW : Nat) (c : Cache) (k : ModelKey) (feat : Features)
    (t1 t2 t3 : Nat) : (Nat × Option Int) × Cache × List HEvent :=
  match mmPredict models c k feat t1 with
  | .ok (p, c1) => ((200, some p), c1, [.predictAttempt])
  | .error e =>
    if containsNotLoaded e then
      match loadModel maxM R F c k dBS dW t2 with
      | .ok (_, c1) =>
        let rr := handlerRetry models c1 k feat t3
        (rr.1, rr.2, [.predictAttempt, .autoLoadAttempt dBS dW, .predictAttempt])
      | .error .registryMissing =>
        ((404, none), c, [.predictAttempt, .autoLoadAttempt dBS dW])
      | .error (.loadFailure _) =>
        ((500, none), c, [.predictAttempt, .autoLoadAttempt dBS dW])
    else ((404, none), c, [.predictAttempt])

/-! ## Read-only cache queries as state transformers (for the frame
property of `is_loaded` / `get_loaded_models`) -/

inductive CacheQuery
  | isLoadedQ (k : ModelKey)
  | getLoadedQ
  deriving Repr, DecidableEq

/-- The cache left behind by one read-only query call. -/
def applyQuery (c : Cache) (q : CacheQuery) : Cache :=
  match q with
  | .isLoadedQ k => (isLoadedCall c k).2
  | .getLoadedQ => (getLoadedModelsCall c).2

/-! ## Helper lemmas -/

/-- For a row-wise predictor the batch round completes each slot with the
per-row label, in queue (= submission) order. -/
theorem runBatch_rowModel (f : Features → Int) (batch : List QItem) :
    runBatch (rowModel f) batch =
      batch.map (fun p => (p.2, Outcome.label (f p.1))) := by
  unfold runBatch rowModel
  simp only [List.map_map]
  induction batch with
  | nil => rfl
  | cons p rest ih =>
    simp only [List.map_cons, List.zip_cons_cons, ih, Function.comp_apply]

/-- Bookkeeping invariant of the scheduler interleavings: every
`model.predict` call detached at least one and at most `B` queue entries,
and every submission is either still queued or was detached. -/
def SchedInv (B : Nat) (s : SchedState) : Prop :=
  s.calls ≤ s.detached ∧ s.detached ≤ s.calls * B ∧
    s.nextSlot = s.queue.length + s.detached

theorem schedStep_inv (B : Nat) (m : ModelFn) (hB : 1 ≤ B)
    (s s' : SchedState) (hstep : SchedStep B m s s') (hinv : SchedInv B s) :
    SchedInv B s' := by
  obtain ⟨h1, h2, h3⟩ := hinv
  cases hstep with
  | submit f =>
    refine ⟨h1, h2, ?_⟩
    simp only [List.length_append, List.length_cons, List.length_nil]
    omega
  | dstart h => exact ⟨h1, h2, h3⟩
  | dwakeEmpty h hq => exact ⟨h1, h2, h3⟩
  | dwakeRun h hq =>
    have hlen1 : 1 ≤ s.queue.length := by
      cases hq2 : s.queue with
      | nil => exact absurd hq2 hq
      | cons a rest => simp [hq2]
    have htake : (detachBatch B s.queue).1.length = min s.queue.length B := by
      simp [detachBatch, detachCount]
    have hdrop : (detachBatch B s.queue).2.length =
        s.queue.length - min s.queue.length B := by
      simp [detachBatch, detachCount]
    have hminB : min s.queue.length B ≤ B := min_le_right _ _
    have hmin1 : 1 ≤ min s.queue.length B := le_min hlen1 hB
    refine ⟨?_, ?_, ?_⟩
    · dsimp only
      rw [htake]
      omega
    · dsimp only
      rw [htake]
      calc s.detached + min s.queue.length B ≤ s.calls * B + B := by omega
        _ = (s.calls + 1) * B := by ring
    · dsimp only
      rw [htake, hdrop]
      omega

theorem reach_inv (B : Nat) (m : ModelFn) (hB : 1 ≤ B) (s : SchedState)
    (h : Reach B m initState s) : SchedInv B s := by
  unfold Reach at h
  induction h with
  | refl => exact ⟨le_refl 0, by simp [initState], rfl⟩
  | tail hr hstep ih => exact schedStep_inv B m hB _ _ hstep ih

/-- Ceiling division transfer: `S ≤ c*B` gives `⌈S/B⌉ ≤ c`. -/
theorem ceil_div_le (S B c : Nat) (hB : 1 ≤ B) (h : S ≤ c * B) :
    (S + B - 1) / B ≤ c := by
  have hlt : S + B - 1 < (c + 1) * B := by
    have : (c + 1) * B = c * B + B := by ring
    omega
  have := (Nat.div_lt_iff_lt_mul (by omega : 0 < B)).2 hlt
  omega

theorem listContains_append (a b n : List Char) (h : listContains b n = true) :
    listContains (a ++ b) n = true := by
  induction a with
  | nil => simpa using h
  | cons c t ih =>
    unfold listContains
    rw [Bool.or_eq_true]
    exact Or.inr ih

/-- The cache-miss `ValueError` message always passes the handler's
`"not loaded" in str(e)` test, whatever the key. -/
theorem containsNotLoaded_notLoadedMsg (k : ModelKey) :
    containsNotLoaded (notLoadedMsg k) = true := by
  unfold containsNotLoaded notLoadedMsg
  rw [String.data_append]
  exact listContains_append _ _ _ (by decide)

/-! ## Claims -/

/-- C1: Batching transparency.  For a row-wise predictor, the drainer's
batch round has one completion per detached slot, completes slot `i` with
`result[i]` in submission order, and that label is exactly what the
predictor would return for the single-row input `[[features]]`
(`predictor.predict([[features]])[0]`). -/
theorem C1_batching_transparency (f : Features → Int) (batch : List QItem)
    (i : Nat) (h : i < batch.length) :
    (runBatch (rowModel f) batch).length = batch.length ∧
    (runBatch (rowModel f) batch).getD i (0, Outcome.label 0) =
      ((batch.getD i ([], 0)).2, Outcome.label (f (batch.getD i ([], 0)).1)) ∧
    singleRowPredict (rowModel f) (batch.getD i ([], 0)).1 =
      .ok (f (batch.getD i ([], 0)).1) := by
  rw [runBatch_rowModel]
  refine ⟨by simp, ?_, by simp [singleRowPredict, rowModel, Except.map]⟩
  have hm : i < (batch.map (fun p => (p.2, Outcome.label (f p.1)))).length := by
    simpa using h
  rw [List.getD_eq_getElem _ _ hm, List.getD_eq_getElem _ _ h, List.getElem_map]

/-- C1 witness: a concrete two-row batch at index 0. -/
theorem C1_batching_transparency_witness :
    (runBatch (rowModel (fun v => v.headD 0 |>.num)) [([5, 3], 11), ([2], 12)]).length = 2 ∧
    (runBatch (rowModel (fun v => v.headD 0 |>.num)) [([5, 3], 11), ([2], 12)]).getD 0
        (0, Outcome.label 0) = (11, Outcome.label 5) ∧
    singleRowPredict (rowModel (fun v => v.headD 0 |>.num)) [5, 3] = .ok 5 := by
  have h := C1_batching_transparency (fun v => v.headD 0 |>.num)
    [([5, 3], 11), ([2], 12)] 0 (by decide)
  simpa using h

/-- C4: every slot the drainer detaches into a batch is completed exactly
once — with its label on success (given the predictor returns one label
per row) or with the shared raised exception — and on a predictor
exception every slot of the batch gets that same failure. -/
theorem C4_slots_completed_once (m : ModelFn) (batch : List QItem)
    (hnodup : (batch.map Prod.snd).Nodup)
    (hlen : ∀ ls, m (batch.map Prod.fst) = .ok ls → ls.length = batch.length) :
    (∀ sid ∈ batch.map Prod.snd,
        ((runBatch m batch).map Prod.fst).count sid = 1) ∧
    ∀ e, m (batch.map Prod.fst) = .error e →
      runBatch m batch = batch.map (fun p => (p.2, Outcome.failure e)) := by
  constructor
  · intro sid hsid
    unfold runBatch
    cases hm : m (batch.map Prod.fst) with
    | ok ls =>
      have hl : ls.length = batch.length := hlen ls hm
      have hfst : (((batch.map Prod.snd).zip (ls.map Outcome.label)).map Prod.fst)
          = batch.map Prod.snd :=
        List.map_fst_zip _ _ (by simp [hl])
      rw [hfst]
      exact List.count_eq_one_of_mem hnodup hsid
    | error e =>
      have hfst : ((batch.map (fun p => (p.snd, Outcome.failure e))).map Prod.fst)
          = batch.map Prod.snd := by
        simp
      rw [hfst]
      exact List.count_eq_one_of_mem hnodup hsid
  · intro e hm
    unfold runBatch
    rw [hm]

/-- C4 witness: a three-row batch against a predictor that raises; each
slot is completed once and all three completions carry the same failure. -/
theorem C4_slots_completed_once_witness :
    (∀ sid ∈ ([([1], 5), ([2], 9), ([3], 4)] : List QItem).map Prod.snd,
        ((runBatch (fun _ => .error "boom") [([1], 5), ([2], 9), ([3], 4)]).map
            Prod.fst).count sid = 1) ∧
    runBatch (fun _ => .error "boom") [([1], 5), ([2], 9), ([3], 4)] =
      [(5, Outcome.failure "boom"), (9, Outcome.failure "boom"),
       (4, Outcome.failure "boom")] := by
  have h := C4_slots_completed_once (fun _ => .error "boom")
    [([1], 5), ([2], 9), ([3], 4)] (by decide)
    (fun ls hc => Except.noConfusion hc)
  exact ⟨h.1, by simpa using h.2 "boom" rfl⟩

/-- C5 counterexample: a record enqueued to the pipeline's queue but not
yet dequeued by the worker when `stop()` cancels it is neither flushed to
the store nor counted as dropped — `stop` flushes only the worker's local
buffer and never reads the queue again. -/
theorem C5_counterexample :
    (logCall { queue := [], buffer := [], flushed := [], dropped := 0 } 7).queue = [7] ∧
    (stopCall (logCall { queue := [], buffer := [], flushed := [], dropped := 0 } 7)).flushed
      = [] ∧
    (stopCall (logCall { queue := [], buffer := [], flushed := [], dropped := 0 } 7)).dropped
      = 0 := by
  refine ⟨rfl, rfl, rfl⟩

/-- C5 amended: on `stop()` the records already dequeued into the worker's
buffer get the best-effort final flush, while the queue is left untouched
(records still queued are neither flushed nor counted as dropped; no drop
counter is ever incremented). -/
theorem C5_stop_flushes_buffer_only (s : LoggerState) :
    (stopCall s).flushed = s.flushed ++ s.buffer ∧
    (stopCall s).queue = s.queue ∧
    (stopCall s).dropped = s.dropped ∧
    ∀ r, r ∈ s.buffer → r ∈ (stopCall s).flushed := by
  refine ⟨rfl, rfl, rfl, ?_⟩
  intro r hr
  simp only [stopCall, List.mem_append]
  exact Or.inr hr

/-- C5 witness: a buffered record is flushed by `stop()`. -/
theorem C5_stop_flushes_buffer_only_witness :
    (5 : LogRec) ∈
      (stopCall { queue := [], buffer := [5], flushed := [], dropped := 0 }).flushed :=
  (C5_stop_flushes_buffer_only
    { queue := [], buffer := [5], flushed := [], dropped := 0 }).2.2.2 5 (by decide)

/-- C6 counterexample: the pipeline queue is `asyncio.Queue()` with the
default `maxsize = 0`, i.e. unbounded — it is never full, an enqueue onto
an already-long queue keeps every older record (nothing is dropped), and
the drop counter stays 0 because no code increments one. -/
theorem C6_counterexample :
    loggerQueueMaxsize = 0 ∧
    queueFull { queue := [0, 1, 2, 3, 4, 5, 6, 7], buffer := [], flushed := [],
                dropped := 0 } = false ∧
    (logCall { queue := [0, 1, 2, 3, 4, 5, 6, 7], buffer := [], flushed := [],
               dropped := 0 } 8).queue = [0, 1, 2, 3, 4, 5, 6, 7, 8] ∧
    (logCall { queue := [0, 1, 2, 3, 4, 5, 6, 7], buffer := [], flushed := [],
               dropped := 0 } 8).dropped = 0 := by
  refine ⟨rfl, by decide, rfl, rfl⟩

/-- C6 amended: the queue is unbounded (never saturated), `log` appends
the record and returns — it never fails observably, never drops a record,
and there is no overflow counter to increment. -/
theorem C6_unbounded_nonfailing_log (s : LoggerState) (r : LogRec) :
    queueFull s = false ∧
    (logCall s r).queue = s.queue ++ [r] ∧
    (logCall s r).dropped = s.dropped ∧
    (logCall s r).flushed = s.flushed ∧
    (logCall s r).buffer = s.buffer := by
  refine ⟨?_, rfl, rfl, rfl, rfl⟩
  simp [queueFull, loggerQueueMaxsize]

/-- C10: the read-only queries `is_loaded` and `get_loaded_models` leave
the cache — membership and recency order alike — exactly as they found
it, so no sequence of them changes which entry `_evict_lru` would remove
next. -/
theorem C10_queries_do_not_disturb_cache (c : Cache) (qs : List CacheQuery) :
    qs.foldl applyQuery c = c ∧
    evictLru (qs.foldl applyQuery c) = evictLru c ∧
    (∀ k, (isLoadedCall c k).2 = c) ∧
    (getLoadedModelsCall c).2 = c := by
  have hfold : qs.foldl applyQuery c = c := by
    induction qs with
    | nil => rfl
    | cons q rest ih =>
      have hq : applyQuery c q = c := by cases q <;> rfl
      rw [List.foldl_cons, hq, ih]
  exact ⟨hfold, by rw [hfold], fun k => rfl, rfl⟩

/-- Two submits interleaved before either spawned `_process_batch` task
has run: both read `processing == False` and both spawn a drainer; after
both tasks start, two drainers sit in their `max_wait_ms` sleep at the
same instant. -/
def twoDrainersState : SchedState :=
  { queue := [([], 0), ([], 1)], processing := true, created := 0,
    sleeping := 2, calls := 0, completed := [], nextSlot := 2, detached := 0 }

/-- C2: the single-flight invariant is violated by the code.  The
`if not self.processing` check (line 41) runs before the spawned task sets
the flag (line 53), so an interleaving of two `predict` calls reaches a
state with two drainer tasks simultaneously active (both inside the
drainer body, sleeping), contradicting "at any instant at most one drainer
is active per scheduler". -/
theorem C2_single_flight_violated :
    Reach 4 demoModel initState twoDrainersState ∧ 1 < twoDrainersState.sleeping := by
  refine ⟨?_, by decide⟩
  refine Relation.ReflTransGen.head (SchedStep.submit initState []) ?_
  refine Relation.ReflTransGen.head (SchedStep.submit _ []) ?_
  refine Relation.ReflTransGen.head (SchedStep.dstart _ (by decide)) ?_
  refine Relation.ReflTransGen.head (SchedStep.dstart _ (by decide)) ?_
  exact Relation.ReflTransGen.refl

/-- End state of a sparse-arrival execution: two submissions arriving in
separate waiting windows, each processed by its own singleton batch. -/
def c8FinalState : SchedState :=
  { queue := [], processing := false, created := 0, sleeping := 0,
    calls := 2, completed := [(0, Outcome.label 0), (1, Outcome.label 0)],
    nextSlot := 2, detached := 2 }

/-- A closed execution (empty queue, no live drainer, all submissions
completed) of a scheduler with `max_batch_size = 4` that makes two
`model.predict` calls for two submissions. -/
theorem c8TraceReach : Reach 4 demoModel initState c8FinalState := by
  refine Relation.ReflTransGen.head (SchedStep.submit initState []) ?_
  refine Relation.ReflTransGen.head (SchedStep.dstart _ (by decide)) ?_
  refine Relation.ReflTransGen.head (SchedStep.dwakeRun _ (by decide) (by decide)) ?_
  refine Relation.ReflTransGen.head (SchedStep.submit _ []) ?_
  refine Relation.ReflTransGen.head (SchedStep.dstart _ (by decide)) ?_
  refine Relation.ReflTransGen.head (SchedStep.dwakeRun _ (by decide) (by decide)) ?_
  exact Relation.ReflTransGen.refl

/-- C8 counterexample: with `max_batch_size = 4`, a closed execution with
2 submissions arriving in separate waiting windows makes 2 predictor
calls, exceeding `⌈2/4⌉ = 1`: the claimed ceiling bound fails because the
drainer detaches *up to* `max_batch_size` entries, not exactly that many. -/
theorem C8_counterexample :
    Reach 4 demoModel initState c8FinalState ∧
    c8FinalState.queue = [] ∧ c8FinalState.created = 0 ∧
    c8FinalState.sleeping = 0 ∧ c8FinalState.nextSlot = 2 ∧
    c8FinalState.calls = 2 ∧
    ¬(c8FinalState.calls ≤ (c8FinalState.nextSlot + 4 - 1) / 4) := by
  exact ⟨c8TraceReach, rfl, rfl, rfl, rfl, rfl, by decide⟩

/-- C8 amended: for a scheduler with `max_batch_size = B ≥ 1`, in any
reachable state with an empty queue (in particular any closed execution),
the number of `model.predict` invocations is at least `⌈submissions/B⌉`
and at most the number of submissions; the claimed upper bound
`⌈submissions/B⌉` holds only as this lower bound, since every invocation
consumes between 1 and `B` queued submissions. -/
theorem C8_call_bounds (B : Nat) (m : ModelFn) (s : SchedState) (hB : 1 ≤ B)
    (h : Reach B m initState s) (hq : s.queue = []) :
    s.calls ≤ s.nextSlot ∧ s.nextSlot ≤ s.calls * B ∧
      (s.nextSlot + B - 1) / B ≤ s.calls := by
  obtain ⟨h1, h2, h3⟩ := reach_inv B m hB s h
  rw [hq] at h3
  simp only [List.length_nil, Nat.zero_add] at h3
  refine ⟨by omega, by omega, ?_⟩
  exact ceil_div_le s.nextSlot B s.calls hB (by omega)

/-- C8 witness: the amended bounds evaluated on the concrete two-call
execution. -/
theorem C8_call_bounds_witness :
    c8FinalState.calls ≤ c8FinalState.nextSlot ∧
    c8FinalState.nextSlot ≤ c8FinalState.calls * 4 ∧
    (c8FinalState.nextSlot + 4 - 1) / 4 ≤ c8FinalState.calls :=
  C8_call_bounds 4 demoModel c8FinalState (by decide) c8TraceReach rfl

/-! ### Concrete registry / cache fixtures -/

def kA : ModelKey := ("alpha", "v1")

def kB : ModelKey := ("beta", "v1")

def kC : ModelKey := ("gamma", "v1")

def Rdemo : ModelKey → Option RegRecord :=
  fun _ => some { framework := "sklearn", s3Path := "models/demo.pkl" }

def Fdemo : ModelKey → Except String Unit := fun _ => .ok ()

def eA : Entry := newEntry "sklearn" 32 50 1

def eB : Entry := newEntry "sklearn" 32 50 2

def cacheA : Cache := [(kA, eA)]

def cacheAB : Cache := [(kA, eA), (kB, eB)]

/-- `cacheAB` arises from loading `kA` then `kB` into a capacity-2
manager. -/
theorem cacheAB_reach : CacheReach 2 cacheAB := by
  have h0 : CacheReach 2 ([] : Cache) := CacheReach.init
  have h1 := CacheReach.loadOk [] Rdemo Fdemo kA 32 50 1
    ({ status := "loaded", modelName := "alpha", version := "v1", message := none,
       framework := some "sklearn", cacheSize := some 1 }, cacheA) h0
    (by intro p hp; cases hp) rfl
  exact CacheReach.loadOk cacheA Rdemo Fdemo kB 32 50 2
    ({ status := "loaded", modelName := "beta", version := "v1", message := none,
       framework := some "sklearn", cacheSize := some 2 }, cacheAB) h1
    (by decide) rfl

/-- C3: the cache never holds more than `maxM` entries, and a successful
load of a fresh key at capacity removes exactly one entry first — the
front of the `OrderedDict`, which under the (strictly monotone) clock has
the strictly smallest `last_used_at` of all residents, so it is the unique
LRU entry and the equal-timestamp tie-break never fires. -/
theorem C3_capacity_and_lru_eviction (maxM : Nat) (hM : 1 ≤ maxM) (c : Cache)
    (hreach : CacheReach maxM c) :
    c.length ≤ maxM ∧
    ∀ R F k bs w now r hd tl,
      c = hd :: tl → c.length = maxM → k ∉ keys c →
      R k = some r → F k = .ok () →
      loadModel maxM R F c k bs w now =
        .ok ({ status := "loaded", modelName := k.1, version := k.2,
               message := none, framework := some r.framework,
               cacheSize := some maxM },
             tl ++ [(k, newEntry r.framework bs w now)]) ∧
      (tl ++ [(k, newEntry r.framework bs w now)]).length = maxM ∧
      ∀ q ∈ tl, hd.2.lastUsed < q.2.lastUsed := by
  have hinv := cacheReach_inv maxM hM c hreach
  refine ⟨hinv.1, ?_⟩
  intro R F k bs w now r hd tl hc hlen hmem hR hF
  have hcap : maxM ≤ c.length := le_of_eq hlen.symm
  have hlen2 : (tl ++ [(k, newEntry r.framework bs w now)]).length = maxM := by
    rw [hc] at hlen
    simp only [List.length_append, List.length_cons, List.length_nil] at hlen ⊢
    omega
  have htl : evictLru c = tl := by rw [hc]; rfl
  refine ⟨?_, hlen2, ?_⟩
  · simp only [loadModel, if_neg hmem, hR, hF, if_pos hcap, htl, hlen2]
  · have hsort := hinv.2
    rw [hc] at hsort
    exact (List.pairwise_cons.1 hsort).1

/-- C3 witness: capacity 2, `alpha` loaded 1 tick before `beta`; loading
`gamma` evicts exactly `alpha`, the strict LRU minimum. -/
theorem C3_capacity_and_lru_eviction_witness :
    cacheAB.length ≤ 2 ∧
    loadModel 2 Rdemo Fdemo cacheAB kC 32 50 3 =
      .ok ({ status := "loaded", modelName := "gamma", version := "v1",
             message := none, framework := some "sklearn", cacheSize := some 2 },
           [(kB, eB), (kC, newEntry "sklearn" 32 50 3)]) ∧
    eA.lastUsed < eB.lastUsed := by
  have h := C3_capacity_and_lru_eviction 2 (by decide) cacheAB cacheAB_reach
  have h2 := h.2 Rdemo Fdemo kC 32 50 3
    { framework := "sklearn", s3Path := "models/demo.pkl" } (kA, eA) [(kB, eB)]
    rfl rfl (by decide) rfl rfl
  exact ⟨h.1, h2.1, h2.2.2 (kB, eB) (by simp)⟩

/-- C9 counterexample: a successful `load` of an already-resident key
returns the `already_loaded` dict of lines 137-142, which carries no
`cache_size` key — the claim that every successful load result contains
the resulting cache size fails. -/
theorem C9_counterexample :
    (loadModel 5 Rdemo Fdemo cacheA kA 32 50 2).toOption.map
        (fun rc => (rc.1.status, rc.1.cacheSize)) =
      some ("already_loaded", none) := rfl

/-- C9 amended: every successful `load` returns a status in
`{loaded, already_loaded}`; the result carries `cache_size` (the resident
count) exactly when the status is `loaded`, and the `already_loaded`
response omits it. -/
theorem C9_load_result_fields (maxM : Nat) (R : ModelKey → Option RegRecord)
    (F : ModelKey → Except String Unit) (c : Cache) (k : ModelKey)
    (bs w now : Nat) (r : LoadResult) (c' : Cache)
    (h : loadModel maxM R F c k bs w now = .ok (r, c')) :
    (r.status = "loaded" ∨ r.status = "already_loaded") ∧
    (r.status = "loaded" → r.cacheSize = some c'.length) ∧
    (r.status = "already_loaded" → r.cacheSize = none) := by
  unfold loadModel at h
  by_cases hmem : k ∈ keys c
  · rw [if_pos hmem] at h
    injection h with h2
    injection h2 with hr hc
    rw [← hr]
    refine ⟨Or.inr rfl, ?_, fun _ => rfl⟩
    intro habs
    simp at habs
  · rw [if_neg hmem] at h
    cases hR : R k with
    | none => rw [hR] at h; exact absurd h (by simp)
    | some rec2 =>
      rw [hR] at h
      cases hF : F k with
      | error e => rw [hF] at h; exact absurd h (by simp)
      | ok u =>
        rw [hF] at h
        injection h with h2
        injection h2 with hr hc
        rw [← hr, ← hc]
        refine ⟨Or.inl rfl, fun _ => rfl, ?_⟩
        intro habs
        simp at habs

/-- C9 witness: the amended field contract evaluated on a fresh load. -/
theorem C9_load_result_fields_witness :
    (({ status := "loaded", modelName := "alpha", version := "v1",
        message := none, framework := some "sklearn",
        cacheSize := some 1 } : LoadResult).status = "loaded" ∨
      ({ status := "loaded", modelName := "alpha", version := "v1",
         message := none, framework := some "sklearn",
         cacheSize := some 1 } : LoadResult).status = "already_loaded") ∧
    (({ status := "loaded", modelName := "alpha", version := "v1",
        message := none, framework := some "sklearn",
        cacheSize := some 1 } : LoadResult).status = "loaded" →
      ({ status := "loaded", modelName := "alpha", version := "v1",
         message := none, framework := some "sklearn",
         cacheSize := some 1 } : LoadResult).cacheSize = some cacheA.length) ∧
    (({ status := "loaded", modelName := "alpha", version := "v1",
        message := none, framework := some "sklearn",
        cacheSize := some 1 } : LoadResult).status = "already_loaded" →
      ({ status := "loaded", modelName := "alpha", version := "v1",
         message := none, framework := some "sklearn",
         cacheSize := some 1 } : LoadResult).cacheSize = none) :=
  C9_load_result_fields 5 Rdemo Fdemo [] kA 32 50 1 _ cacheA rfl

/-- A concrete per-row predictor assignment for handler executions. -/
def models0 : ModelKey → Features → Int := fun _ _ => 0

/-- C7: when the cache reports the model as not loaded, the `predict`
handler performs exactly one auto-load — passing the configured default
`batch_size` and `batch_wait_ms` — and at most one retry (exactly one when
the auto-load returns), and a retry that still finds the key missing is
answered with a 404. -/
theorem C7_autoload_retry_policy (models : ModelKey → Features → Int)
    (maxM : Nat) (R : ModelKey → Option RegRecord)
    (F : ModelKey → Except String Unit) (dBS dW : Nat) (c : Cache)
    (k : ModelKey) (feat : Features) (t1 t2 t3 : Nat)
    (hmiss : k ∉ keys c) :
    ((handlerPredict models maxM R F dBS dW c k feat t1 t2 t3).2.2.countP
        isAutoLoadEv = 1) ∧
    (HEvent.autoLoadAttempt dBS dW ∈
        (handlerPredict models maxM R F dBS dW c k feat t1 t2 t3).2.2) ∧
    ((handlerPredict models maxM R F dBS dW c k feat t1 t2 t3).2.2.countP
        isPredictEv ≤ 2) ∧
    (∀ lr c1, loadModel maxM R F c k dBS dW t2 = .ok (lr, c1) →
      (handlerPredict models maxM R F dBS dW c k feat t1 t2 t3).2.2.countP
        isPredictEv = 2) ∧
    (∀ c2 : Cache, k ∉ keys c2 →
      (handlerRetry models c2 k feat t3).1.1 = 404) := by
  have hpe : mmPredict models c k feat t1 = .error (notLoadedMsg k) := by
    unfold mmPredict
    rw [if_neg hmiss]
  have hret : ∀ c2 : Cache, k ∉ keys c2 →
      (handlerRetry models c2 k feat t3).1.1 = 404 := by
    intro c2 h2
    have hpe2 : mmPredict models c2 k feat t3 = .error (notLoadedMsg k) := by
      unfold mmPredict
      rw [if_neg h2]
    unfold handlerRetry
    rw [hpe2]
  have htrace : (handlerPredict models maxM R F dBS dW c k feat t1 t2 t3).2.2 =
      match loadModel maxM R F c k dBS dW t2 with
      | .ok _ => [.predictAttempt, .autoLoadAttempt dBS dW, .predictAttempt]
      | .error _ => [.predictAttempt, .autoLoadAttempt dBS dW] := by
    unfold handlerPredict
    rw [hpe]
    dsimp only
    rw [if_pos (containsNotLoaded_notLoadedMsg k)]
    cases hload : loadModel maxM R F c k dBS dW t2 with
    | ok pr => rfl
    | error e => cases e <;> rfl
  refine ⟨?_, ?_, ?_, ?_, hret⟩
  · rw [htrace]
    cases hload : loadModel maxM R F c k dBS dW t2 with
    | ok pr => simp [isAutoLoadEv]
    | error e => simp [isAutoLoadEv]
  · rw [htrace]
    cases hload : loadModel maxM R F c k dBS dW t2 with
    | ok pr => simp
    | error e => simp
  · rw [htrace]
    cases hload : loadModel maxM R F c k dBS dW t2 with
    | ok pr => simp [isPredictEv]
    | error e => simp [isPredictEv]
  · intro lr c1 hload
    rw [htrace, hload]
    simp [isPredictEv]

/-- C7 witness: a miss on the empty cache triggers one auto-load with the
defaults `(32, 50)` and exactly one retry; a still-missing key at retry
time yields a 404. -/
theorem C7_autoload_retry_policy_witness :
    ((handlerPredict models0 5 Rdemo Fdemo 32 50 [] kA [] 1 2 3).2.2.countP
        isAutoLoadEv = 1) ∧
    (HEvent.autoLoadAttempt 32 50 ∈
        (handlerPredict models0 5 Rdemo Fdemo 32 50 [] kA [] 1 2 3).2.2) ∧
    ((handlerPredict models0 5 Rdemo Fdemo 32 50 [] kA [] 1 2 3).2.2.countP
        isPredictEv = 2) ∧
    (handlerRetry models0 [] kA [] 3).1.1 = 404 := by
  have h := C7_autoload_retry_policy models0 5 Rdemo Fdemo 32 50 [] kA [] 1 2 3
    (by decide)
  exact ⟨h.1, h.2.1,
    h.2.2.2.1
      { status := "loaded", modelName := "alpha", version := "v1",
        message := none, framework := some "sklearn", cacheSize := some 1 }
      [(kA, newEntry "sklearn" 32 50 2)] rfl,
    h.2.2.2.2 [] (by decide)⟩

end Thrift
